import Mathlib

/-!
Verification development for the civic-lib-core repository.

The definitions below are a shallow embedding of the Python modules
`civic_lib_core/graphql_utils.py`, `civic_lib_core/docs_api_extract.py`,
`civic_lib_core/docs_api_render.py` and `civic_lib_core/docs_api_config.py`.
Pure string manipulation is modelled on `List Char` (Lean's byte-position
string primitives do not reduce in the kernel); Python exceptions become
`Except` values; the network and the file system become explicit data
(a list of responses, an association list of files).
-/

/-! ## String helpers

Python string operations used by the code, modelled over `List Char`
(a `Char` is compared by its code point, exactly as Python compares
characters of a `str`). -/

/-- Python `s.startswith("_")`: true iff the first character is an underscore. -/
def startsUnderscore (s : String) : Bool :=
  match s.data with
  | [] => false
  | c :: _ => c == '_'

/-- Lexicographic `<=` on character lists by code point: Python's `str` order,
which is what `sorted(..., key=...)` uses on the extracted names. -/
def lexLe : List Char → List Char → Bool
  | [], _ => true
  | _ :: _, [] => false
  | a :: as, b :: bs => if a.toNat = b.toNat then lexLe as bs else decide (a.toNat < b.toNat)

theorem lexLe_total : ∀ as bs, lexLe as bs = true ∨ lexLe bs as = true := by
  intro as
  induction as with
  | nil => intro bs; left; rfl
  | cons a as ih =>
    intro bs
    cases bs with
    | nil => right; rfl
    | cons b bs =>
      by_cases h : a.toNat = b.toNat
      · rcases ih bs with h' | h'
        · left; simp [lexLe, h, h']
        · right; simp [lexLe, h.symm, h']
      · rcases Nat.lt_or_ge a.toNat b.toNat with hlt | hge
        · left; simp [lexLe, h, hlt]
        · right
          have hne : b.toNat ≠ a.toNat := fun hh => h hh.symm
          have : b.toNat < a.toNat := lt_of_le_of_ne hge hne
          simp [lexLe, hne, this]

theorem lexLe_trans :
    ∀ as bs cs, lexLe as bs = true → lexLe bs cs = true → lexLe as cs = true := by
  intro as
  induction as with
  | nil => intro bs cs _ _; rfl
  | cons a as ih =>
    intro bs cs hab hbc
    cases bs with
    | nil => simp [lexLe] at hab
    | cons b bs =>
      cases cs with
      | nil => simp [lexLe] at hbc
      | cons c cs =>
        by_cases h1 : a.toNat = b.toNat
        · by_cases h2 : b.toNat = c.toNat
          · have hac : a.toNat = c.toNat := h1.trans h2
            simp [lexLe, h1] at hab
            simp [lexLe, h2] at hbc
            simp [lexLe, hac]
            exact ih bs cs hab hbc
          · simp [lexLe, h2] at hbc
            have hac : a.toNat < c.toNat := h1 ▸ hbc
            have hne : a.toNat ≠ c.toNat := Nat.ne_of_lt hac
            simp [lexLe, hne, hac]
        · simp [lexLe, h1] at hab
          by_cases h2 : b.toNat = c.toNat
          · have hac : a.toNat < c.toNat := h2 ▸ hab
            have hne : a.toNat ≠ c.toNat := Nat.ne_of_lt hac
            simp [lexLe, hne, hac]
          · simp [lexLe, h2] at hbc
            have hac : a.toNat < c.toNat := Nat.lt_trans hab hbc
            have hne : a.toNat ≠ c.toNat := Nat.ne_of_lt hac
            simp [lexLe, hne, hac]

/-- `<=` between two strings, as Python compares them. -/
def pyStrLe (a b : String) : Prop := lexLe a.data b.data = true

instance : DecidableRel pyStrLe := fun a b =>
  inferInstanceAs (Decidable (lexLe a.data b.data = true))

/-- Python substring test `pat in s` restricted to what we need:
does `s` contain `pat` as a contiguous run of characters? -/
def charsStartsWith : List Char → List Char → Bool
  | [], _ => true
  | _ :: _, [] => false
  | p :: ps, c :: cs => p == c && charsStartsWith ps cs

def charsContains (pat : List Char) : List Char → Bool
  | [] => pat.isEmpty
  | c :: rest => charsStartsWith pat (c :: rest) || charsContains pat rest

def strContains (s pat : String) : Bool := charsContains pat.data s.data

/-! ## GraphQL pagination (`graphql_utils.py`)

The decoded JSON responses, Python subscripting / `.get` semantics, the
transport-error taxonomy of `gql`, and the three fetch helpers. -/

/-- A decoded JSON value, the shape of a GraphQL response. -/
inductive Json where
  | null
  | bool (b : Bool)
  | num (n : Int)
  | str (s : String)
  | arr (elems : List Json)
  | obj (fields : List (String × Json))

/-- The `gql` transport exception taxonomy matched by `handle_transport_errors`. -/
inductive GqlError where
  | transportServer (msg : String)
  | transportQuery (msg : String)
  | transportProtocol (msg : String)
  | other (msg : String)

/-- Python exceptions that the pagination code can raise or propagate. -/
inductive PyErr where
  | keyError (k : String)
  | typeError
  | attributeError
  | valueError (msg : String)
  | transport (e : GqlError)

/-- First-match lookup in a JSON object's field list (Python dicts have
unique keys, so first-match and dict lookup agree). -/
def fieldLookup : List (String × Json) → String → Option Json
  | [], _ => none
  | (k, v) :: rest, key => if k = key then some v else fieldLookup rest key

/-- Python `data[key]`: `KeyError` on a dict without the key, `TypeError`
when the value is not a dict. -/
def subscript (j : Json) (key : String) : Except PyErr Json :=
  match j with
  | .obj fields =>
    match fieldLookup fields key with
    | some v => .ok v
    | none => .error (.keyError key)
  | _ => .error .typeError

/-- `for key in path: data = data[key]` — sequential subscripting. -/
def descend (j : Json) : List String → Except PyErr Json
  | [] => .ok j
  | k :: ks => match subscript j k with
    | .ok v => descend v ks
    | .error e => .error e

/-- Python iteration as used by `collected.extend(data)`: a list yields its
elements, a string its characters, a dict its keys; other values raise
`TypeError`. -/
def pyIter (j : Json) : Except PyErr (List Json) :=
  match j with
  | .arr xs => .ok xs
  | .str s => .ok (s.data.map fun c => .str (String.mk [c]))
  | .obj fields => .ok (fields.map fun kv => .str kv.1)
  | _ => .error .typeError

/-- Python `d.get(key, default)`: `AttributeError` when `d` is not a dict. -/
def pyGetD (j : Json) (key : String) (dflt : Json) : Except PyErr Json :=
  match j with
  | .obj fields => .ok ((fieldLookup fields key).getD dflt)
  | _ => .error .attributeError

/-- Python `d.get(key)` (default `None`). -/
def pyGet (j : Json) (key : String) : Except PyErr Json := pyGetD j key .null

/-- Python truthiness of a decoded JSON value. -/
def pyTruthy : Json → Bool
  | .null => false
  | .bool b => b
  | .num n => n != 0
  | .str s => !s.data.isEmpty
  | .arr xs => !xs.isEmpty
  | .obj fields => !fields.isEmpty

/-- Locating `pageInfo` inside a response, from `async_paged_query`:
with no explicit `page_info_path` it descends `data_path[:-1]` and takes
`"pageInfo"`, turning a `KeyError`/`TypeError` into the `ValueError` the
source raises; with an explicit path it just descends it. -/
def locatePageInfo (response : Json) (dataPath : List String)
    (pageInfoPath : Option (List String)) : Except PyErr Json :=
  match pageInfoPath with
  | none =>
    match (match descend response dataPath.dropLast with
           | .ok x => subscript x "pageInfo"
           | .error e => .error e) with
    | .ok v => .ok v
    | .error (.keyError _) =>
      .error (.valueError "Could not infer page_info path. Please specify page_info_path.")
    | .error .typeError =>
      .error (.valueError "Could not infer page_info path. Please specify page_info_path.")
    | .error e => .error e
  | some p => descend response p

/-- The GraphQL variables of one request: `{"first": 100, "after": after}`
(`after` is `null` on the first request). -/
structure PageRequest where
  first : Int
  after : Json

/-- The loop body of `async_paged_query`, one recursion step per server
response.  The endpoint is the list of responses it would give to the
successive requests; a run that exhausts the list without reaching a page
with a falsy `hasNextPage` never terminates in Python, which we model as
`none`.  The result records the requests issued (in order) and either the
collected records or the first raised exception. -/
def asyncPagedQueryLoop (dataPath : List String) (pageInfoPath : Option (List String))
    (after : Json) :
    List (Except GqlError Json) → Option (List PageRequest × Except PyErr (List Json))
  | [] => none
  | resp :: rest =>
    let req : PageRequest := ⟨100, after⟩
    match resp with
    | .error e => some ([req], .error (.transport e))
    | .ok response =>
      match descend response dataPath with
      | .error e => some ([req], .error e)
      | .ok data =>
        match pyIter data with
        | .error e => some ([req], .error e)
        | .ok items =>
          match locatePageInfo response dataPath pageInfoPath with
          | .error e => some ([req], .error e)
          | .ok pi =>
            match pyGet pi "hasNextPage" with
            | .error e => some ([req], .error e)
            | .ok hasNext =>
              if pyTruthy hasNext then
                match pyGet pi "endCursor" with
                | .error e => some ([req], .error e)
                | .ok cursor =>
                  match asyncPagedQueryLoop dataPath pageInfoPath cursor rest with
                  | none => none
                  | some (reqs, .error e) => some (req :: reqs, .error e)
                  | some (reqs, .ok l) => some (req :: reqs, .ok (items ++ l))
              else some ([req], .ok items)

/-- `async_paged_query`: the pagination loop started with `after = None`. -/
def async_paged_query (dataPath : List String) (pageInfoPath : Option (List String))
    (responses : List (Except GqlError Json)) :
    Option (List PageRequest × Except PyErr (List Json)) :=
  asyncPagedQueryLoop dataPath pageInfoPath Json.null responses

/-- `handle_transport_errors`: returns the friendly message for a 403
`TransportServerError` ("{resource} access not yet granted"); for every
other exception it logs and re-raises, modelled as `none`. -/
def handle_transport_errors (e : PyErr) (resourceName : String) : Option String :=
  match e with
  | .transport (.transportServer msg) =>
    if strContains msg "403" then some (resourceName ++ " access not yet granted") else none
  | _ => none

/-- `paged_query`: runs `async_paged_query` (with no explicit
`page_info_path`); on an exception it calls `handle_transport_errors` —
if that returns (the 403 case) the function falls through to `return []`,
otherwise the exception propagates. -/
def paged_query (dataPath : List String) (url : String)
    (responses : List (Except GqlError Json)) : Option (Except PyErr (List Json)) :=
  match async_paged_query dataPath none responses with
  | none => none
  | some (_, .ok l) => some (.ok l)
  | some (_, .error e) =>
    match handle_transport_errors e url with
    | some _ => some (.ok [])
    | none => some (.error e)

/-- The loop body of `fetch_paginated`: the simplified variant with the
fixed `{dataKey: {edges: [{node}], pageInfo}}` response shape.  The base
query variables are unchanged across pages and do not influence the loop,
so a request is again recorded as its `{"first": 100, "after": after}`
pagination variables. -/
def fetchPaginatedLoop (dataKey : String) (after : Json) :
    List (Except GqlError Json) → Option (List PageRequest × Except PyErr (List Json))
  | [] => none
  | resp :: rest =>
    let req : PageRequest := ⟨100, after⟩
    match resp with
    | .error e => some ([req], .error (.transport e))
    | .ok response =>
      match subscript response dataKey with
      | .error e => some ([req], .error e)
      | .ok page =>
        match pyGetD page "edges" (.arr []) with
        | .error e => some ([req], .error e)
        | .ok edgesJ =>
          match pyIter edgesJ with
          | .error e => some ([req], .error e)
          | .ok edges =>
            match edges.mapM (fun e => subscript e "node") with
            | .error e => some ([req], .error e)
            | .ok nodes =>
              match pyGetD page "pageInfo" (.obj []) with
              | .error e => some ([req], .error e)
              | .ok piJ =>
                match pyGet piJ "hasNextPage" with
                | .error e => some ([req], .error e)
                | .ok hasNext =>
                  if pyTruthy hasNext then
                    match subscript page "pageInfo" with
                    | .error e => some ([req], .error e)
                    | .ok pi =>
                      match pyGet pi "endCursor" with
                      | .error e => some ([req], .error e)
                      | .ok cursor =>
                        match fetchPaginatedLoop dataKey cursor rest with
                        | none => none
                        | some (reqs, .error e) => some (req :: reqs, .error e)
                        | some (reqs, .ok l) => some (req :: reqs, .ok (nodes ++ l))
                  else some ([req], .ok nodes)

/-- `fetch_paginated`: the simplified pagination loop started with
`after = None`. -/
def fetch_paginated (dataKey : String) (responses : List (Except GqlError Json)) :
    Option (List PageRequest × Except PyErr (List Json)) :=
  fetchPaginatedLoop dataKey Json.null responses

/-! ## API extraction (`docs_api_extract.py`) -/

/-- A documented symbol: the `{"name", "signature", "docstring"}` dict
built for each public function or class. -/
structure SymbolDoc where
  name : String
  signature : String
  docstring : String
deriving DecidableEq

/-- The placeholder substituted for a missing docstring. -/
def pyDefaultDoc : String := "No description available."

/-- The nodes of `ast.walk(tree)` relevant to extraction: function
definitions (argument names, rendered default expressions, optional
docstring), class definitions (rendered base-class expressions, optional
docstring), and anything else. -/
inductive PyAst where
  | fnDef (nm : String) (args : List String) (defaults : List String) (doc : Option String)
  | clsDef (nm : String) (bases : List String) (doc : Option String)
  | otherNode
deriving DecidableEq

/-- Stable sort by symbol name: `sorted(entries, key=lambda x: x["name"])`. -/
def sortByName (l : List SymbolDoc) : List SymbolDoc :=
  List.insertionSort (fun a b => pyStrLe a.name b.name) l

/-- The signature string built by `find_public_functions`: trailing
arguments are paired with the rendered default expressions. -/
def buildFnSignature (nm : String) (args defaults : List String) : String :=
  let k := args.length - defaults.length
  let parts := args.mapIdx fun i a =>
    if i ≥ k then a ++ "=" ++ defaults.getD (i - k) "" else a
  nm ++ "(" ++ String.intercalate ", " parts ++ ")"

/-- `find_public_functions(tree, public_names)`: every `FunctionDef` node
whose name does not start with `_` or appears in `public_names`, sorted by
name. -/
def find_public_functions (tree : List PyAst) (public_names : List String) :
    List SymbolDoc :=
  sortByName (tree.filterMap fun node =>
    match node with
    | .fnDef nm args defaults doc =>
      if !startsUnderscore nm || public_names.any (fun p => p = nm) then
        some ⟨nm, buildFnSignature nm args defaults, doc.getD pyDefaultDoc⟩
      else none
    | _ => none)

/-- The signature string built by `find_public_classes`:
name plus parenthesized base list, nothing when there are no bases. -/
def buildClsSignature (nm : String) (bases : List String) : String :=
  nm ++ (if bases.isEmpty then "" else "(" ++ String.intercalate ", " bases ++ ")")

/-- `find_public_classes(tree, public_names)`: every `ClassDef` node whose
name does not start with `_` or appears in `public_names`, sorted by name. -/
def find_public_classes (tree : List PyAst) (public_names : List String) :
    List SymbolDoc :=
  sortByName (tree.filterMap fun node =>
    match node with
    | .clsDef nm bases doc =>
      if !startsUnderscore nm || public_names.any (fun p => p = nm) then
        some ⟨nm, buildClsSignature nm bases, doc.getD pyDefaultDoc⟩
      else none
    | _ => none)

/-- One entry of `vars(module)` as `get_public_members` sees it: a function
or a class (with the `inspect` signature when `inspect.signature` succeeds,
and the `inspect.getdoc` docstring when present), or any other attribute. -/
inductive PyMember where
  | func (sig : Option String) (doc : Option String)
  | cls (sig : Option String) (doc : Option String)
  | nonCallable
deriving DecidableEq

/-- `get_public_members(module)`: walks `vars(module)`, skips every name
starting with `_` (the declared `__all__` allowlist is never consulted),
keeps functions and classes, and sorts each list by name.  A failing
`inspect.signature` falls back to `"()"`. -/
def get_public_members (module : List (String × PyMember)) :
    List SymbolDoc × List SymbolDoc :=
  let fns := module.filterMap fun nm_mem =>
    match nm_mem with
    | (nm, .func sig doc) =>
      if startsUnderscore nm then none
      else some ⟨nm, nm ++ sig.getD "()", doc.getD pyDefaultDoc⟩
    | _ => none
  let cs := module.filterMap fun nm_mem =>
    match nm_mem with
    | (nm, .cls sig doc) =>
      if startsUnderscore nm then none
      else some ⟨nm, nm ++ sig.getD "()", doc.getD pyDefaultDoc⟩
    | _ => none
  (sortByName fns, sortByName cs)

/-- One `.py` file found by `package_path.rglob("*.py")`: its path parts
relative to the package root (the last part is the stem, without `.py`),
and the outcome of `dynamic_import_from_path` — `none` when importing
raised, otherwise the module's `vars` as `get_public_members` sees them. -/
structure PyFile where
  parts : List String
  imported : Option (List (String × PyMember))

/-- `py_file.name`: the basename, stem plus the `.py` suffix. -/
def pyBaseName (f : PyFile) : String := f.parts.getLastD "" ++ ".py"

/-- `".".join(rel_path.with_suffix("").parts)`: the dotted module name. -/
def pyModuleName (f : PyFile) : String := String.intercalate "." f.parts

/-- The `{"functions", "classes"}` dict stored per module. -/
structure ModuleApi where
  functions : List SymbolDoc
  classes : List SymbolDoc
deriving DecidableEq

/-- `extract_module_api(package_path)`: for every file whose basename does
not start with `_` and whose import succeeds, an entry mapping its dotted
module name to its public members; import failures are logged and skipped. -/
def extract_module_api (files : List PyFile) : List (String × ModuleApi) :=
  files.filterMap fun f =>
    if startsUnderscore (pyBaseName f) then none
    else
      match f.imported with
      | none => none
      | some m =>
        let fc := get_public_members m
        some (pyModuleName f, ⟨fc.1, fc.2⟩)

/-! ## Rendering (`docs_api_render.py`)

The file system is an association list from path to content; opening a
file with mode `"w"` overwrites it. -/

abbrev FS : Type := List (String × String)

/-- `open(path, "w")` followed by writing `content`: replace the entry in
place, or append a new one. -/
def fsWrite : FS → String → String → FS
  | [], p, c => [(p, c)]
  | (q, d) :: rest, p, c =>
    if q = p then (q, c) :: rest else (q, d) :: fsWrite rest p c

def fsLookup : FS → String → Option String
  | [], _ => none
  | (q, d) :: rest, p => if q = p then some d else fsLookup rest p

/-- A sequence of file writes applied in order. -/
def fsApplyWrites (fs : FS) (writes : List (String × String)) : FS :=
  writes.foldl (fun s qc => fsWrite s qc.1 qc.2) fs

/-- The Markdown text written by `write_module_markdown`: H1 heading, then
the Classes section when the class list is non-empty, then the Functions
section when the function list is non-empty. -/
def moduleMarkdown (module_name : String) (functions classes : List SymbolDoc) :
    String :=
  "# Module `" ++ module_name ++ "`\n\n"
  ++ (if classes.isEmpty then "" else
      "## Classes\n\n" ++ String.join (classes.map fun c =>
        "### `" ++ c.signature ++ "`\n\n" ++ c.docstring ++ "\n\n"))
  ++ (if functions.isEmpty then "" else
      "## Functions\n\n" ++ String.join (functions.map fun f =>
        "### `" ++ f.signature ++ "`\n\n" ++ f.docstring ++ "\n\n"))

/-- `write_module_markdown`: one overwriting file write. -/
def write_module_markdown (fs : FS) (file_path module_name : String)
    (functions classes : List SymbolDoc) : FS :=
  fsWrite fs file_path (moduleMarkdown module_name functions classes)

/-- The write performed by `write_markdown_docs` for one module: skipped
entirely when the module has no public functions and no public classes. -/
def mdWrite (output_dir : String) (entry : String × ModuleApi) :
    Option (String × String) :=
  if entry.2.functions.isEmpty && entry.2.classes.isEmpty then none
  else some (output_dir ++ "/" ++ entry.1 ++ ".md",
             moduleMarkdown entry.1 entry.2.functions entry.2.classes)

def mdWrites (api : List (String × ModuleApi)) (output_dir : String) :
    List (String × String) :=
  api.filterMap (mdWrite output_dir)

/-- `write_markdown_docs(api_data, output_dir)`. -/
def write_markdown_docs (api : List (String × ModuleApi)) (output_dir : String)
    (fs : FS) : FS :=
  fsApplyWrites fs (mdWrites api output_dir)

/-- The `minimal_yaml` mapping of `write_yaml_summary`: each module with a
non-empty function list mapped to its function names. -/
def minimalYaml (api : List (String × ModuleApi)) : List (String × List String) :=
  api.filterMap fun entry =>
    let names := entry.2.functions.map (·.name)
    if names.isEmpty then none else some (entry.1, names)

/-- Model of `yaml.dump(mapping, sort_keys=True, default_flow_style=False)`
for a mapping from strings to lists of strings: keys sorted, each value
rendered as a block sequence.  (The PyYAML serializer itself is a library
call outside this repository; what matters here is that it is a pure
function of the mapping.) -/
def yamlDumpFnMap (entries : List (String × List String)) : String :=
  String.join ((List.insertionSort (fun a b => pyStrLe a.1 b.1) entries).map
    fun kv => kv.1 ++ ":\n" ++ String.join (kv.2.map fun v => "- " ++ v ++ "\n"))

/-- The (possibly empty) write list of `write_yaml_summary`: nothing when
no module contributes function names, otherwise the single `API.yaml`. -/
def yamlWrites (api : List (String × ModuleApi)) (output_dir : String) :
    List (String × String) :=
  if (minimalYaml api).isEmpty then []
  else [(output_dir ++ "/API.yaml", yamlDumpFnMap (minimalYaml api))]

/-- `write_yaml_summary(api_data, output_dir)`. -/
def write_yaml_summary (api : List (String × ModuleApi)) (output_dir : String)
    (fs : FS) : FS :=
  fsApplyWrites fs (yamlWrites api output_dir)

/-- `generate_docs` with the default formats: the YAML summary, then the
Markdown files, over the same extractor output. -/
def renderDocs (api : List (String × ModuleApi)) (output_dir : String) (fs : FS) :
    FS :=
  write_markdown_docs api output_dir (write_yaml_summary api output_dir fs)

/-! ## Site navigation and config (`docs_api_config.py`) -/

/-- Python `str.replace("_", " ")` for single characters. -/
def replaceUnderscores (s : String) : String :=
  String.mk (s.data.map fun c => if c = '_' then ' ' else c)

/-- Python `str.title()` for ASCII text: the first letter of every run of
letters is uppercased, the rest lowercased. -/
def pyTitleGo : Bool → List Char → List Char
  | _, [] => []
  | prevAlpha, c :: rest =>
    if c.isAlpha then
      (if prevAlpha then c.toLower else c.toUpper) :: pyTitleGo true rest
    else
      c :: pyTitleGo false rest

def pyTitle (s : String) : String := String.mk (pyTitleGo false s.data)

/-- `md_file.stem.replace("_", " ").title()`: the navigation title. -/
def navTitle (stem : String) : String := pyTitle (replaceUnderscores stem)

/-- One `.md` file of the API source directory: its stem, and the result of
`relative_to(mkdocs_base_src_dir)` — `none` when that raises `ValueError`
(the file is then logged and left out of the nav). -/
structure MdFile where
  stem : String
  rel : Option String

/-- `build_api_nav(api_src_dir, mkdocs_base_src_dir)`: an empty list when
the directory does not exist (`none`); otherwise one flat `{title: path}`
entry per Markdown file in sorted order, skipping files with no relative
path.  An empty result is logged, not raised. -/
def build_api_nav (apiSrcDir : Option (List MdFile)) : List (String × String) :=
  match apiSrcDir with
  | none => []
  | some files =>
    (List.insertionSort (fun a b => pyStrLe a.stem b.stem) files).filterMap fun f =>
      match f.rel with
      | some r => some (navTitle f.stem, r)
      | none => none

/-- One entry of the generated `nav`: a single page, or a titled group of
pages (the "API Reference" block). -/
inductive NavEntry where
  | page (title : String) (path : String)
  | group (title : String) (entries : List (String × String))
deriving DecidableEq

/-- The fields of the generated `mkdocs.yml` that depend on the inputs. -/
structure MkdocsConfig where
  site_name : String
  site_description : String
  docs_dir : String
  site_dir : String
  nav : List NavEntry
deriving DecidableEq

/-- `generate_mkdocs_config`: always starts the nav with the Home entry,
appends the "API Reference" group only when `include_api_nav` is set and
`build_api_nav` found entries, then the custom nav, and writes the config.
The function has no failure path; `Except` makes that visible. -/
def generate_mkdocs_config (project_name : String) (include_api_nav : Bool)
    (custom_nav : List NavEntry) (mkdocs_src_dir_name site_dir_name : String)
    (apiSrcDir : Option (List MdFile)) : Except String MkdocsConfig :=
  let baseNav : List NavEntry := [.page "Home" "index.md"]
  let withApi :=
    if include_api_nav then
      let api_nav := build_api_nav apiSrcDir
      if api_nav.isEmpty then baseNav else baseNav ++ [.group "API Reference" api_nav]
    else baseNav
  .ok {
    site_name := project_name ++ " Documentation"
    site_description := "Documentation for " ++ project_name
    docs_dir := mkdocs_src_dir_name
    site_dir := site_dir_name
    nav := withApi ++ custom_nav
  }

/-! ## Helper lemmas -/

theorem mem_sortByName {s : SymbolDoc} {l : List SymbolDoc} :
    s ∈ sortByName l ↔ s ∈ l :=
  List.mem_insertionSort _

theorem sortByName_sorted (l : List SymbolDoc) :
    List.Sorted (fun a b => pyStrLe a.name b.name) (sortByName l) :=
  @List.sorted_insertionSort SymbolDoc (fun a b => pyStrLe a.name b.name) _
    ⟨fun a b => lexLe_total a.name.data b.name.data⟩
    ⟨fun a b c => lexLe_trans a.name.data b.name.data c.name.data⟩ l

/-! ## Claims about the extractor -/

/-- Claim C3, counterexample: a module whose import succeeds but that has
zero public functions and zero public classes is present in the mapping
returned by `extract_module_api`, with both lists empty — it is not
omitted as the claim states. -/
theorem C3_counterexample :
    extract_module_api [⟨["empty_mod"], some []⟩] =
      [("empty_mod", (⟨[], []⟩ : ModuleApi))] := rfl

/-- Claim C3 (amended): an imported module whose basename does not start
with an underscore always appears in the extraction result — with empty
lists when it has no public members; it is the later Markdown renderer
(`write_markdown_docs`) that skips modules with no public API elements. -/
theorem C3_amended_empty_modules_present :
    (∀ (files : List PyFile) (f : PyFile) (m : List (String × PyMember)),
      f ∈ files → startsUnderscore (pyBaseName f) = false → f.imported = some m →
      (pyModuleName f,
        (⟨(get_public_members m).1, (get_public_members m).2⟩ : ModuleApi)) ∈
        extract_module_api files)
    ∧ (∀ (dir nm : String), mdWrite dir (nm, ⟨[], []⟩) = none) := by
  constructor
  · intro files f m hf hbase himp
    unfold extract_module_api
    refine List.mem_filterMap.mpr ⟨f, hf, ?_⟩
    simp [hbase, himp]
  · intro dir nm
    rfl

/-- Witness for C3's amended theorem at a concrete empty module. -/
theorem C3_amended_witness :
    ("empty_mod", (⟨[], []⟩ : ModuleApi)) ∈
      extract_module_api [⟨["empty_mod"], some []⟩] :=
  C3_amended_empty_modules_present.1 [⟨["empty_mod"], some []⟩]
    ⟨["empty_mod"], some []⟩ [] (List.mem_singleton.mpr rfl) rfl rfl

/-- Claim C5, counterexample: a file `_private/mod.py` inside an
underscore-named subdirectory is not skipped (only the basename is
checked), so the result contains the module key `"_private.mod"`, whose
dotted name starts with an underscore. -/
theorem C5_counterexample :
    extract_module_api [⟨["_private", "mod"], some []⟩] =
      [("_private.mod", (⟨[], []⟩ : ModuleApi))]
    ∧ startsUnderscore "_private.mod" = true := ⟨rfl, rfl⟩

/-- Claim C5 (amended): only the file's basename is consulted — every key
of the extraction result comes from a file whose basename does not start
with an underscore (so dunder-named files are always skipped), but a
dotted module name may still begin with an underscore via a subdirectory. -/
theorem C5_amended_basename_rule :
    (∀ (files : List PyFile) (k : String) (api : ModuleApi),
      (k, api) ∈ extract_module_api files →
      ∃ f ∈ files, pyModuleName f = k ∧ startsUnderscore (pyBaseName f) = false)
    ∧ (∀ files : List PyFile,
      (∀ f ∈ files, startsUnderscore (pyBaseName f) = true) →
      extract_module_api files = []) := by
  constructor
  · intro files k api hmem
    unfold extract_module_api at hmem
    obtain ⟨f, hf, heq⟩ := List.mem_filterMap.mp hmem
    refine ⟨f, hf, ?_⟩
    by_cases hb : startsUnderscore (pyBaseName f) = true
    · simp [hb] at heq
    · rcases himp : f.imported with _ | m
      · simp [hb, himp] at heq
      · simp [hb, himp] at heq
        exact ⟨heq.1, by simpa using hb⟩
  · intro files hall
    unfold extract_module_api
    refine List.filterMap_eq_nil_iff.mpr ?_
    intro f hf
    simp [hall f hf]

/-- Witness for C5's amended theorem at a concrete one-file package. -/
theorem C5_amended_witness :
    ∃ f ∈ [(⟨["mod"], some []⟩ : PyFile)],
      pyModuleName f = "mod" ∧ startsUnderscore (pyBaseName f) = false :=
  C5_amended_basename_rule.1 [⟨["mod"], some []⟩] "mod" ⟨[], []⟩
    (List.mem_singleton.mpr rfl)

/-- Claim C4, counterexample: the static and dynamic strategies do not
apply the same visibility rule.  For a module defining `_helper` and
listing it in `__all__`, the AST-based `find_public_functions` includes
it, while the reflection-based `get_public_members` (the strategy
`extract_module_api` actually uses) excludes it: it never consults the
allowlist. -/
theorem C4_counterexample :
    (find_public_functions [.fnDef "_helper" [] [] none] ["_helper"]).map
        SymbolDoc.name = ["_helper"]
    ∧ (get_public_members [("_helper", .func none none)]).1 = [] := ⟨rfl, rfl⟩

/-- Claim C4 (amended): the static extractors include a symbol exactly
when its name does not start with an underscore or appears in the
allowlist, while the dynamic extractor includes a symbol exactly when its
name does not start with an underscore — the allowlist plays no role
there, so the two strategies are not interchangeable on underscore-named
allowlisted symbols. -/
theorem C4_amended_visibility_rules :
    (∀ (tree : List PyAst) (pub : List String) (nm : String),
      (∃ s ∈ find_public_functions tree pub, s.name = nm) ↔
      ((∃ args defaults doc, PyAst.fnDef nm args defaults doc ∈ tree) ∧
        (startsUnderscore nm = false ∨ nm ∈ pub)))
    ∧ (∀ (tree : List PyAst) (pub : List String) (nm : String),
      (∃ s ∈ find_public_classes tree pub, s.name = nm) ↔
      ((∃ bases doc, PyAst.clsDef nm bases doc ∈ tree) ∧
        (startsUnderscore nm = false ∨ nm ∈ pub)))
    ∧ (∀ (module : List (String × PyMember)) (nm : String),
      (∃ s ∈ (get_public_members module).1, s.name = nm) ↔
      ((∃ sig doc, (nm, PyMember.func sig doc) ∈ module) ∧
        startsUnderscore nm = false))
    ∧ (∀ (module : List (String × PyMember)) (nm : String),
      (∃ s ∈ (get_public_members module).2, s.name = nm) ↔
      ((∃ sig doc, (nm, PyMember.cls sig doc) ∈ module) ∧
        startsUnderscore nm = false)) := by
  have hpub : ∀ (pub : List String) (nm : String),
      (pub.any fun p => p = nm) = true ↔ nm ∈ pub := by
    intro pub nm
    simp [List.any_eq_true]
  refine ⟨?_, ?_, ?_, ?_⟩
  · intro tree pub nm
    constructor
    · rintro ⟨s, hs, rfl⟩
      rw [find_public_functions, mem_sortByName, List.mem_filterMap] at hs
      obtain ⟨node, hnode, heq⟩ := hs
      cases node with
      | fnDef nm' args defaults doc =>
        by_cases hc : (!startsUnderscore nm' || pub.any fun p => p = nm') = true
        · simp [hc] at heq
          subst heq
          rcases Bool.or_eq_true_iff.mp hc with h | h
          · exact ⟨⟨args, defaults, doc, hnode⟩, Or.inl (by simpa using h)⟩
          · exact ⟨⟨args, defaults, doc, hnode⟩, Or.inr ((hpub pub _).mp h)⟩
        · simp [hc] at heq
      | clsDef nm' bases doc => simp at heq
      | otherNode => simp at heq
    · rintro ⟨⟨args, defaults, doc, hmem⟩, hvis⟩
      refine ⟨⟨nm, buildFnSignature nm args defaults, doc.getD pyDefaultDoc⟩, ?_, rfl⟩
      rw [find_public_functions, mem_sortByName, List.mem_filterMap]
      refine ⟨.fnDef nm args defaults doc, hmem, ?_⟩
      have hc : (!startsUnderscore nm || pub.any fun p => p = nm) = true := by
        rcases hvis with h | h
        · simp [h]
        · simp [(hpub pub nm).mpr h]
      simp [hc]
  · intro tree pub nm
    constructor
    · rintro ⟨s, hs, rfl⟩
      rw [find_public_classes, mem_sortByName, List.mem_filterMap] at hs
      obtain ⟨node, hnode, heq⟩ := hs
      cases node with
      | fnDef nm' args defaults doc => simp at heq
      | clsDef nm' bases doc =>
        by_cases hc : (!startsUnderscore nm' || pub.any fun p => p = nm') = true
        · simp [hc] at heq
          subst heq
          rcases Bool.or_eq_true_iff.mp hc with h | h
          · exact ⟨⟨bases, doc, hnode⟩, Or.inl (by simpa using h)⟩
          · exact ⟨⟨bases, doc, hnode⟩, Or.inr ((hpub pub _).mp h)⟩
        · simp [hc] at heq
      | otherNode => simp at heq
    · rintro ⟨⟨bases, doc, hmem⟩, hvis⟩
      refine ⟨⟨nm, buildClsSignature nm bases, doc.getD pyDefaultDoc⟩, ?_, rfl⟩
      rw [find_public_classes, mem_sortByName, List.mem_filterMap]
      refine ⟨.clsDef nm bases doc, hmem, ?_⟩
      have hc : (!startsUnderscore nm || pub.any fun p => p = nm) = true := by
        rcases hvis with h | h
        · simp [h]
        · simp [(hpub pub nm).mpr h]
      simp [hc]
  · intro module nm
    constructor
    · rintro ⟨s, hs, rfl⟩
      rw [get_public_members] at hs
      simp only [mem_sortByName, List.mem_filterMap] at hs
      obtain ⟨⟨nm', mem⟩, hmem, heq⟩ := hs
      cases mem with
      | func sig doc =>
        by_cases hu : startsUnderscore nm' = true
        · simp [hu] at heq
        · simp [hu] at heq
          subst heq
          exact ⟨⟨sig, doc, hmem⟩, by simpa using hu⟩
      | cls sig doc => simp at heq
      | nonCallable => simp at heq
    · rintro ⟨⟨sig, doc, hmem⟩, hu⟩
      refine ⟨⟨nm, nm ++ sig.getD "()", doc.getD pyDefaultDoc⟩, ?_, rfl⟩
      rw [get_public_members]
      simp only [mem_sortByName, List.mem_filterMap]
      exact ⟨(nm, .func sig doc), hmem, by simp [hu]⟩
  · intro module nm
    constructor
    · rintro ⟨s, hs, rfl⟩
      rw [get_public_members] at hs
      simp only [mem_sortByName, List.mem_filterMap] at hs
      obtain ⟨⟨nm', mem⟩, hmem, heq⟩ := hs
      cases mem with
      | func sig doc => simp at heq
      | cls sig doc =>
        by_cases hu : startsUnderscore nm' = true
        · simp [hu] at heq
        · simp [hu] at heq
          subst heq
          exact ⟨⟨sig, doc, hmem⟩, by simpa using hu⟩
      | nonCallable => simp at heq
    · rintro ⟨⟨sig, doc, hmem⟩, hu⟩
      refine ⟨⟨nm, nm ++ sig.getD "()", doc.getD pyDefaultDoc⟩, ?_, rfl⟩
      rw [get_public_members]
      simp only [mem_sortByName, List.mem_filterMap]
      exact ⟨(nm, .cls sig doc), hmem, by simp [hu]⟩

/-- Claim C6: in every extraction result the function list and the class
list are each sorted lexicographically ascending by symbol name, under the
static (AST) strategy and under the dynamic (reflection) strategy alike. -/
theorem C6_lists_sorted (tree : List PyAst) (pub : List String)
    (module : List (String × PyMember)) :
    List.Sorted (fun a b => pyStrLe a.name b.name) (find_public_functions tree pub)
    ∧ List.Sorted (fun a b => pyStrLe a.name b.name) (find_public_classes tree pub)
    ∧ List.Sorted (fun a b => pyStrLe a.name b.name) (get_public_members module).1
    ∧ List.Sorted (fun a b => pyStrLe a.name b.name) (get_public_members module).2 :=
  ⟨sortByName_sorted _, sortByName_sorted _, sortByName_sorted _, sortByName_sorted _⟩

/-! ## Claims about the renderer -/

/-- The per-class H3 block, as the spec describes it. -/
def specClassBlock (c : SymbolDoc) : String :=
  "### `" ++ c.signature ++ "`\n\n" ++ c.docstring ++ "\n\n"

/-- The Classes section, as the spec describes it: absent when the class
list is empty. -/
def specClassesSection (classes : List SymbolDoc) : String :=
  if classes.isEmpty then ""
  else "## Classes\n\n" ++ String.join (classes.map specClassBlock)

/-- The Functions section, as the spec describes it. -/
def specFunctionsSection (functions : List SymbolDoc) : String :=
  if functions.isEmpty then ""
  else "## Functions\n\n" ++ String.join (functions.map specClassBlock)

/-- Claim C8: the Markdown written for a module is exactly an H1 module
heading, then the Classes section (an H2 header plus one H3 subsection per
class with its signature and docstring) only when the class list is
non-empty, then the Functions section with the same structure only when
the function list is non-empty; an empty list contributes the empty
string, so its header never appears. -/
theorem C8_markdown_structure (nm : String) (fns cls : List SymbolDoc) :
    moduleMarkdown nm fns cls =
      "# Module `" ++ nm ++ "`\n\n" ++ specClassesSection cls ++ specFunctionsSection fns
    ∧ (cls = [] → specClassesSection cls = "")
    ∧ (fns = [] → specFunctionsSection fns = "")
    ∧ (cls ≠ [] → specClassesSection cls =
        "## Classes\n\n" ++ String.join (cls.map specClassBlock))
    ∧ (fns ≠ [] → specFunctionsSection fns =
        "## Functions\n\n" ++ String.join (fns.map specClassBlock)) := by
  refine ⟨rfl, ?_, ?_, ?_, ?_⟩
  · rintro rfl; rfl
  · rintro rfl; rfl
  · intro h
    simp [specClassesSection, List.isEmpty_eq_true, h]
  · intro h
    simp [specFunctionsSection, List.isEmpty_eq_true, h]

/-- Witness for C8 at a module with one class and no functions. -/
theorem C8_markdown_structure_witness :
    moduleMarkdown "m" [] [⟨"C", "C(Base)", "doc"⟩] =
      "# Module `m`\n\n" ++ specClassesSection [⟨"C", "C(Base)", "doc"⟩]
        ++ specFunctionsSection []
    ∧ specFunctionsSection ([] : List SymbolDoc) = ""
    ∧ specClassesSection [⟨"C", "C(Base)", "doc"⟩] =
        "## Classes\n\n" ++ String.join ([⟨"C", "C(Base)", "doc"⟩].map specClassBlock) :=
  ⟨(C8_markdown_structure "m" [] [⟨"C", "C(Base)", "doc"⟩]).1,
   (C8_markdown_structure "m" [] [⟨"C", "C(Base)", "doc"⟩]).2.2.1 rfl,
   (C8_markdown_structure "m" [] [⟨"C", "C(Base)", "doc"⟩]).2.2.2.1
     (List.cons_ne_nil _ _)⟩

/-! ## Idempotence of rendering (claim C7) -/

theorem fsLookup_fsWrite (fs : FS) (q c p : String) :
    fsLookup (fsWrite fs q c) p = if q = p then some c else fsLookup fs p := by
  induction fs with
  | nil =>
    by_cases h : q = p <;> simp [fsWrite, fsLookup, h]
  | cons qd rest ih =>
    obtain ⟨q', d⟩ := qd
    by_cases h1 : q' = q
    · subst h1
      by_cases h2 : q' = p <;> simp [fsWrite, fsLookup, h2]
    · by_cases h2 : q' = p
      · subst h2
        have : ¬q = q' := fun hh => h1 hh.symm
        simp [fsWrite, fsLookup, h1, this]
      · simp [fsWrite, fsLookup, h1, h2, ih]

/-- The first write to `p` in a write list. -/
def firstWrite : List (String × String) → String → Option String
  | [], _ => none
  | (q, c) :: rest, p => if q = p then some c else firstWrite rest p

/-- The last write to `p` in a write list — the content that survives. -/
def lastWrite (writes : List (String × String)) (p : String) : Option String :=
  firstWrite writes.reverse p

theorem firstWrite_append (xs ys : List (String × String)) (p : String) :
    firstWrite (xs ++ ys) p =
      match firstWrite xs p with
      | some c => some c
      | none => firstWrite ys p := by
  induction xs with
  | nil => simp [firstWrite]
  | cons qc xs ih =>
    obtain ⟨q, c⟩ := qc
    by_cases h : q = p <;> simp [firstWrite, h, ih]

theorem lastWrite_cons (q c : String) (writes : List (String × String)) (p : String) :
    lastWrite ((q, c) :: writes) p =
      match lastWrite writes p with
      | some d => some d
      | none => if q = p then some c else none := by
  unfold lastWrite
  rw [List.reverse_cons, firstWrite_append]
  cases firstWrite writes.reverse p <;> simp [firstWrite]

theorem fsLookup_fsApplyWrites (writes : List (String × String)) :
    ∀ (fs : FS) (p : String),
      fsLookup (fsApplyWrites fs writes) p =
        match lastWrite writes p with
        | some c => some c
        | none => fsLookup fs p := by
  induction writes with
  | nil => intro fs p; simp [fsApplyWrites, lastWrite, firstWrite]
  | cons qc writes ih =>
    intro fs p
    obtain ⟨q, c⟩ := qc
    have hstep : fsApplyWrites fs ((q, c) :: writes) =
        fsApplyWrites (fsWrite fs q c) writes := rfl
    rw [hstep, ih, lastWrite_cons]
    cases lastWrite writes p with
    | some d => rfl
    | none =>
      simp only [fsLookup_fsWrite]
      by_cases h : q = p <;> simp [h]

theorem renderDocs_eq_applyWrites (api : List (String × ModuleApi))
    (dir : String) (fs : FS) :
    renderDocs api dir fs =
      fsApplyWrites fs (yamlWrites api dir ++ mdWrites api dir) := by
  unfold renderDocs write_markdown_docs write_yaml_summary fsApplyWrites
  rw [List.foldl_append]

/-- Claim C7: rendering is deterministic and idempotent — running the
Markdown and YAML renderers a second time on the identical extractor
output leaves every file with byte-for-byte the same content as after the
first run. -/
theorem C7_render_idempotent (api : List (String × ModuleApi)) (dir : String)
    (fs : FS) (path : String) :
    fsLookup (renderDocs api dir (renderDocs api dir fs)) path =
      fsLookup (renderDocs api dir fs) path := by
  rw [renderDocs_eq_applyWrites, renderDocs_eq_applyWrites, fsLookup_fsApplyWrites,
    fsLookup_fsApplyWrites]
  cases lastWrite (yamlWrites api dir ++ mdWrites api dir) path <;> rfl

/-! ## Claims about navigation/config generation -/

/-- Claim C9, counterexample: run against an existing output directory
with zero Markdown files, `generate_mkdocs_config` succeeds — it writes a
config whose nav has only the Home entry and raises nothing — instead of
signalling failure. -/
theorem C9_counterexample :
    generate_mkdocs_config "Proj" true [] "mkdocs_src" "docs" (some []) =
      .ok ⟨"Proj Documentation", "Documentation for Proj", "mkdocs_src", "docs",
        [.page "Home" "index.md"]⟩ := rfl

/-- Claim C9 (amended): on a directory with no Markdown files (or a
missing directory) `build_api_nav` returns an empty nav and
`generate_mkdocs_config` succeeds, writing a config whose nav omits the
"API Reference" section entirely (Home plus any custom entries); no error
is signalled. -/
theorem C9_amended_empty_dir_silent :
    (∀ (pn : String) (custom : List NavEntry) (msd sdn : String)
      (apiDir : Option (List MdFile)),
      build_api_nav apiDir = [] →
      generate_mkdocs_config pn true custom msd sdn apiDir =
        .ok ⟨pn ++ " Documentation", "Documentation for " ++ pn, msd, sdn,
          NavEntry.page "Home" "index.md" :: custom⟩)
    ∧ build_api_nav (some []) = []
    ∧ build_api_nav none = [] := by
  refine ⟨?_, rfl, rfl⟩
  intro pn custom msd sdn apiDir h
  simp [generate_mkdocs_config, h]

/-- Witness for C9's amended theorem at a concrete empty directory. -/
theorem C9_amended_witness :
    generate_mkdocs_config "Proj" true [.page "About" "about.md"] "mkdocs_src"
        "docs" (some []) =
      .ok ⟨"Proj Documentation", "Documentation for Proj", "mkdocs_src", "docs",
        NavEntry.page "Home" "index.md" :: [.page "About" "about.md"]⟩ :=
  C9_amended_empty_dir_silent.1 "Proj" [.page "About" "about.md"] "mkdocs_src"
    "docs" (some []) rfl

/-! ## Claims about pagination -/

/-- The abstract content of one endpoint page: its record list, its
continuation flag, and its continuation token. -/
structure PageShape where
  records : List Json
  hasNext : Bool
  endCursor : Json

/-- A response is a well-formed page for `async_paged_query`: the record
list sits at `dataPath`, and the page-info block (located as the function
locates it) carries the boolean continuation flag and the token. -/
def IsPage (dataPath : List String) (pageInfoPath : Option (List String))
    (response : Json) (p : PageShape) : Prop :=
  descend response dataPath = .ok (.arr p.records) ∧
  ∃ pi, locatePageInfo response dataPath pageInfoPath = .ok pi ∧
    pyGet pi "hasNextPage" = .ok (.bool p.hasNext) ∧
    pyGet pi "endCursor" = .ok p.endCursor

/-- A response is a well-formed page for `fetch_paginated`: the
`{dataKey: {edges, pageInfo}}` shape, with `p.records` the unwrapped
`edge["node"]` values. -/
def IsNodesPage (dataKey : String) (response : Json) (p : PageShape) : Prop :=
  ∃ page edges piD pi,
    subscript response dataKey = .ok page ∧
    pyGetD page "edges" (.arr []) = .ok (.arr edges) ∧
    edges.mapM (fun e => subscript e "node") = .ok p.records ∧
    pyGetD page "pageInfo" (.obj []) = .ok piD ∧
    pyGet piD "hasNextPage" = .ok (.bool p.hasNext) ∧
    subscript page "pageInfo" = .ok pi ∧
    pyGet pi "endCursor" = .ok p.endCursor

/-- The requests a compliant pagination loop issues: `100`/`after` first,
then `100`/cursor for each page that had `hasNextPage` set. -/
def expectedRequests (after : Json) (pages : List PageShape) : List PageRequest :=
  (after :: (pages.takeWhile fun p => p.hasNext).map fun p => p.endCursor).map
    fun c => PageRequest.mk 100 c

/-- The records a compliant pagination loop returns: the concatenation, in
page order, of the record lists up to and including the first page whose
continuation flag is false. -/
def expectedRecords (pages : List PageShape) : List Json :=
  ((pages.take ((pages.takeWhile fun p => p.hasNext).length + 1)).map
    fun p => p.records).flatten

theorem asyncLoop_spec (dataPath : List String) (pip : Option (List String)) :
    ∀ (resps : List Json) (pages : List PageShape) (after : Json),
      List.Forall₂ (IsPage dataPath pip) resps pages →
      (pages.any fun p => !p.hasNext) = true →
      asyncPagedQueryLoop dataPath pip after (resps.map Except.ok) =
        some (expectedRequests after pages, .ok (expectedRecords pages)) := by
  intro resps pages after hwf
  induction hwf generalizing after with
  | nil => intro hstop; simp at hstop
  | @cons r p rs ps hrp htail ih =>
    intro hstop
    obtain ⟨hdata, pi, hpi, hnext, hcur⟩ := hrp
    by_cases hp : p.hasNext = true
    · have hstop' : (ps.any fun q => !q.hasNext) = true := by
        simpa [hp] using hstop
      simp only [List.map_cons, asyncPagedQueryLoop, hdata, pyIter, hpi, hnext,
        hcur, pyTruthy, hp, if_true, ih _ hstop']
      simp [expectedRequests, expectedRecords, List.takeWhile_cons, hp]
    · have hp' : p.hasNext = false := by simpa using hp
      simp only [List.map_cons, asyncPagedQueryLoop, hdata, pyIter, hpi, hnext,
        pyTruthy, hp', if_false]
      simp [expectedRequests, expectedRecords, List.takeWhile_cons, hp']

theorem fetchLoop_spec (dataKey : String) :
    ∀ (resps : List Json) (pages : List PageShape) (after : Json),
      List.Forall₂ (IsNodesPage dataKey) resps pages →
      (pages.any fun p => !p.hasNext) = true →
      fetchPaginatedLoop dataKey after (resps.map Except.ok) =
        some (expectedRequests after pages, .ok (expectedRecords pages)) := by
  intro resps pages after hwf
  induction hwf generalizing after with
  | nil => intro hstop; simp at hstop
  | @cons r p rs ps hrp htail ih =>
    intro hstop
    obtain ⟨page, edges, piD, pi, hsub, hedges, hnodes, hpiD, hnext, hpi, hcur⟩ := hrp
    by_cases hp : p.hasNext = true
    · have hstop' : (ps.any fun q => !q.hasNext) = true := by
        simpa [hp] using hstop
      simp only [List.map_cons, fetchPaginatedLoop, hsub, hedges, pyIter, hnodes,
        hpiD, hnext, pyTruthy, hp, if_true, hpi, hcur, ih _ hstop']
      simp [expectedRequests, expectedRecords, List.takeWhile_cons, hp]
    · have hp' : p.hasNext = false := by simpa using hp
      simp only [List.map_cons, fetchPaginatedLoop, hsub, hedges, pyIter, hnodes,
        hpiD, hnext, pyTruthy, hp', if_false]
      simp [expectedRequests, expectedRecords, List.takeWhile_cons, hp']

/-- Claim C1: against any endpoint whose responses are well-formed pages
with some page carrying a false continuation flag, both paginated fetch
helpers return exactly the concatenation of the record lists of the pages
up to and including the first one with `hasNextPage = false`, in page and
within-page order, while issuing exactly one `{"first": 100, "after": c}`
request per consumed page — `after` null on the first request and the
previous page's `endCursor` afterwards; later pages are never requested. -/
theorem C1_pagination_accumulation :
    (∀ (dataPath : List String) (pip : Option (List String)) (resps : List Json)
      (pages : List PageShape),
      List.Forall₂ (IsPage dataPath pip) resps pages →
      (pages.any fun p => !p.hasNext) = true →
      async_paged_query dataPath pip (resps.map Except.ok) =
        some (expectedRequests Json.null pages, .ok (expectedRecords pages)))
    ∧ (∀ (dataKey : String) (resps : List Json) (pages : List PageShape),
      List.Forall₂ (IsNodesPage dataKey) resps pages →
      (pages.any fun p => !p.hasNext) = true →
      fetch_paginated dataKey (resps.map Except.ok) =
        some (expectedRequests Json.null pages, .ok (expectedRecords pages))) :=
  ⟨fun dataPath pip resps pages hwf hstop =>
    asyncLoop_spec dataPath pip resps pages Json.null hwf hstop,
   fun dataKey resps pages hwf hstop =>
    fetchLoop_spec dataKey resps pages Json.null hwf hstop⟩

/-- The single-page response of the unit test: one record,
`hasNextPage = false`. -/
def singlePageResp : Json :=
  .obj [("items", .obj [
    ("edges", .arr [.obj [("node", .obj [("id", .num 1)])]]),
    ("pageInfo", .obj [("hasNextPage", .bool false), ("endCursor", .null)])])]

/-- Page 1 of the 2-page mock endpoint of the `fetch_paginated` test. -/
def mockPage1 : Json :=
  .obj [("testData", .obj [
    ("edges", .arr [.obj [("node", .obj [("id", .num 1)])]]),
    ("pageInfo", .obj [("hasNextPage", .bool true), ("endCursor", .str "cursor1")])])]

/-- Page 2 of the 2-page mock endpoint of the `fetch_paginated` test. -/
def mockPage2 : Json :=
  .obj [("testData", .obj [
    ("edges", .arr [.obj [("node", .obj [("id", .num 2)])]]),
    ("pageInfo", .obj [("hasNextPage", .bool false), ("endCursor", .null)])])]

/-- Witness for C1: the single-page short-circuit (1 request, that page's
records) and the 2-page mock (2 requests, page 2 asked with cursor
`"cursor1"`, the 2 records in page order). -/
theorem C1_pagination_accumulation_witness :
    async_paged_query ["items", "edges"] (some ["items", "pageInfo"])
        ([singlePageResp].map Except.ok) =
      some ([⟨100, Json.null⟩], .ok [.obj [("node", .obj [("id", .num 1)])]])
    ∧ fetch_paginated "testData" ([mockPage1, mockPage2].map Except.ok) =
      some ([⟨100, Json.null⟩, ⟨100, Json.str "cursor1"⟩],
        .ok [.obj [("id", .num 1)], .obj [("id", .num 2)]]) := by
  constructor
  · exact C1_pagination_accumulation.1 ["items", "edges"] (some ["items", "pageInfo"])
      [singlePageResp]
      [⟨[.obj [("node", .obj [("id", .num 1)])]], false, .null⟩]
      (List.Forall₂.cons
        ⟨rfl, .obj [("hasNextPage", .bool false), ("endCursor", .null)], rfl, rfl, rfl⟩
        List.Forall₂.nil)
      rfl
  · exact C1_pagination_accumulation.2 "testData" [mockPage1, mockPage2]
      [⟨[.obj [("id", .num 1)]], true, .str "cursor1"⟩,
       ⟨[.obj [("id", .num 2)]], false, .null⟩]
      (List.Forall₂.cons
        ⟨.obj [("edges", .arr [.obj [("node", .obj [("id", .num 1)])]]),
              ("pageInfo", .obj [("hasNextPage", .bool true), ("endCursor", .str "cursor1")])],
         [.obj [("node", .obj [("id", .num 1)])]],
         .obj [("hasNextPage", .bool true), ("endCursor", .str "cursor1")],
         .obj [("hasNextPage", .bool true), ("endCursor", .str "cursor1")],
         rfl, rfl, rfl, rfl, rfl, rfl, rfl⟩
        (List.Forall₂.cons
          ⟨.obj [("edges", .arr [.obj [("node", .obj [("id", .num 2)])]]),
                ("pageInfo", .obj [("hasNextPage", .bool false), ("endCursor", .null)])],
           [.obj [("node", .obj [("id", .num 2)])]],
           .obj [("hasNextPage", .bool false), ("endCursor", .null)],
           .obj [("hasNextPage", .bool false), ("endCursor", .null)],
           rfl, rfl, rfl, rfl, rfl, rfl, rfl⟩
          List.Forall₂.nil))
      rfl

/-- Claim C2: the synchronous wrapper never returns a truncated non-empty
record list.  Whatever the endpoint does: a non-empty list returned by
`paged_query` is exactly the complete accumulation of an error-free
pagination run, and when the underlying run raises, the wrapper either
re-raises the exception or (for the handled 403 case) reports and returns
the empty list — the records accumulated before the failure are
discarded, never returned. -/
theorem C2_no_partial_results (dataPath : List String) (url : String)
    (resps : List (Except GqlError Json)) :
    (∀ l, paged_query dataPath url resps = some (.ok l) → l ≠ [] →
      ∃ reqs, async_paged_query dataPath none resps = some (reqs, .ok l))
    ∧ (∀ reqs e, async_paged_query dataPath none resps = some (reqs, .error e) →
      paged_query dataPath url resps = some (.error e) ∨
        paged_query dataPath url resps = some (.ok [])) := by
  constructor
  · intro l hpq hne
    unfold paged_query at hpq
    rcases hasync : async_paged_query dataPath none resps with _ | ⟨reqs, out⟩
    · rw [hasync] at hpq
      simp at hpq
    · rw [hasync] at hpq
      cases out with
      | ok l' =>
        simp at hpq
        exact ⟨reqs, by rw [hpq]⟩
      | error e =>
        cases hh : handle_transport_errors e url with
        | none => simp [hh] at hpq
        | some msg =>
          simp [hh] at hpq
          exact absurd hpq.symm (fun hx => hne (hx.symm ▸ rfl))
  · intro reqs e hasync
    unfold paged_query
    rw [hasync]
    cases hh : handle_transport_errors e url with
    | none => left; simp [hh]
    | some msg => right; simp [hh]

/-- A well-formed non-final page whose `endCursor` is `"c1"`, for the C2
witness run that fails on its second request. -/
def c2FirstPage : Json :=
  .obj [("items", .arr [.num 1]),
        ("pageInfo", .obj [("hasNextPage", .bool true), ("endCursor", .str "c1")])]

/-- A well-formed final page, for the C2 witness run that succeeds. -/
def c2OnlyPage : Json :=
  .obj [("items", .arr [.num 1]),
        ("pageInfo", .obj [("hasNextPage", .bool false), ("endCursor", .null)])]

/-- Witness for C2: a clean single-page run returns its complete list, and
a run whose second request raises a transport error makes `paged_query`
fail (or return `[]`), not return page 1's record. -/
theorem C2_no_partial_results_witness :
    (∃ reqs, async_paged_query ["items"] none [.ok c2OnlyPage] =
      some (reqs, .ok [.num 1]))
    ∧ (paged_query ["items"] "url"
        [.ok c2FirstPage, .error (.transportQuery "boom")] =
          some (.error (.transport (.transportQuery "boom")))
      ∨ paged_query ["items"] "url"
          [.ok c2FirstPage, .error (.transportQuery "boom")] = some (.ok [])) :=
  ⟨(C2_no_partial_results ["items"] "url" [.ok c2OnlyPage]).1 [.num 1] rfl
    (List.cons_ne_nil _ _),
   (C2_no_partial_results ["items"] "url"
      [.ok c2FirstPage, .error (.transportQuery "boom")]).2
    [⟨100, Json.null⟩, ⟨100, Json.str "c1"⟩]
    (.transport (.transportQuery "boom")) rfl⟩

/-- Every failure of Python subscripting is a `KeyError` or a `TypeError`. -/
theorem subscript_error_shape (j : Json) (k : String) (e : PyErr)
    (h : subscript j k = .error e) :
    (∃ k', e = .keyError k') ∨ e = .typeError := by
  cases j with
  | obj fields =>
    rcases hfl : fieldLookup fields k with _ | v
    · rw [subscript, hfl] at h
      simp at h
      exact Or.inl ⟨k, h.symm⟩
    · rw [subscript, hfl] at h
      simp at h
  | null => simp [subscript] at h; exact Or.inr h.symm
  | bool b => simp [subscript] at h; exact Or.inr h.symm
  | num n => simp [subscript] at h; exact Or.inr h.symm
  | str s => simp [subscript] at h; exact Or.inr h.symm
  | arr xs => simp [subscript] at h; exact Or.inr h.symm

/-- Every failure of a path descent is a `KeyError` or a `TypeError`. -/
theorem descend_error_shape :
    ∀ (ks : List String) (j : Json) (e : PyErr), descend j ks = .error e →
      (∃ k', e = .keyError k') ∨ e = .typeError := by
  intro ks
  induction ks with
  | nil => intro j e h; simp [descend] at h
  | cons k ks ih =>
    intro j e h
    rw [descend] at h
    cases hs : subscript j k with
    | ok v => rw [hs] at h; exact ih v e h
    | error e' =>
      rw [hs] at h
      simp at h
      exact h ▸ subscript_error_shape j k e' hs

/-- Claim C10: with no explicit page-info path, the pagination metadata is
looked up at `data_path[:-1] + ["pageInfo"]`; when that lookup succeeds its
value is used, and when it fails (key absent or a non-dict on the way) the
fetch raises `ValueError` asking the caller to pass `page_info_path`
explicitly — the pagination loop aborts with that error instead of
continuing or returning a result. -/
theorem C10_page_info_inference (response : Json) (dataPath : List String) :
    (∀ v,
      (match descend response dataPath.dropLast with
       | .ok x => subscript x "pageInfo"
       | .error e => .error e) = .ok v →
      locatePageInfo response dataPath none = .ok v)
    ∧ (∀ e,
      (match descend response dataPath.dropLast with
       | .ok x => subscript x "pageInfo"
       | .error e => .error e) = .error e →
      locatePageInfo response dataPath none =
        .error (.valueError
          "Could not infer page_info path. Please specify page_info_path."))
    ∧ (∀ (after : Json) (rest : List (Except GqlError Json)) (items : List Json)
        (msg : String),
      descend response dataPath = .ok (.arr items) →
      locatePageInfo response dataPath none = .error (.valueError msg) →
      asyncPagedQueryLoop dataPath none after (.ok response :: rest) =
        some ([⟨100, after⟩], .error (.valueError msg))) := by
  refine ⟨?_, ?_, ?_⟩
  · intro v h
    unfold locatePageInfo
    rw [h]
  · intro e h
    have hshape : (∃ k', e = .keyError k') ∨ e = .typeError := by
      cases hd : descend response dataPath.dropLast with
      | ok x =>
        rw [hd] at h
        exact subscript_error_shape x "pageInfo" e h
      | error e' =>
        rw [hd] at h
        simp at h
        exact h ▸ descend_error_shape dataPath.dropLast response e' hd
    unfold locatePageInfo
    rw [h]
    rcases hshape with ⟨k', rfl⟩ | rfl <;> rfl
  · intro after rest items msg h1 h2
    simp only [asyncPagedQueryLoop, h1, pyIter, h2]

/-- A response with no page-info block anywhere, for the C10 witness. -/
def c10NoPageInfo : Json := .obj [("items", .arr [])]

/-- Witness for C10: on a response carrying `pageInfo` next to the record
list the inference finds it; on a response without the key the fetch
aborts with the `ValueError`. -/
theorem C10_page_info_inference_witness :
    locatePageInfo c2OnlyPage ["items"] none =
      .ok (.obj [("hasNextPage", .bool false), ("endCursor", .null)])
    ∧ locatePageInfo c10NoPageInfo ["items"] none =
      .error (.valueError
        "Could not infer page_info path. Please specify page_info_path.")
    ∧ asyncPagedQueryLoop ["items"] none Json.null [.ok c10NoPageInfo] =
      some ([⟨100, Json.null⟩],
        .error (.valueError
          "Could not infer page_info path. Please specify page_info_path.")) :=
  ⟨(C10_page_info_inference c2OnlyPage ["items"]).1
      (.obj [("hasNextPage", .bool false), ("endCursor", .null)]) rfl,
   (C10_page_info_inference c10NoPageInfo ["items"]).2.1
      (.keyError "pageInfo") rfl,
   (C10_page_info_inference c10NoPageInfo ["items"]).2.2 Json.null [] []
      "Could not infer page_info path. Please specify page_info_path." rfl rfl⟩
